import Mathlib

/-!
Verification development for the akdof fetch-cache-edit pipeline
(library `akdof_shared`): shallow embeddings of the retrying request
dispatcher, pagination protocol, snapshot cache manager, change
detection, the resource sync unit, and the batched edit engine,
together with theorems settling the specification claims.
-/

namespace Akdof

/-! ## Batched edit engine (`gis/feature_layer_editor.py`) -/

namespace FeatureLayerEditor

/-- Outcome of one `_edit_request` call, as observed by
`apply_edits_with_validation`: success, an `aiohttp` error carrying an
HTTP status (`ClientResponseError` / `ContentTypeError`), or an
`EditFailureResponse` raised by `_validate_apply_edits_response`. -/
inductive EditRequestOutcome where
  | ok : EditRequestOutcome
  | httpErr (status : Nat) : EditRequestOutcome
  | editFailureResponse : EditRequestOutcome
deriving DecidableEq, Repr

/-- Errors that `apply_edits_with_validation` can surface. -/
inductive EditError where
  | clientResponse (status : Nat) : EditError
  | editFailureResponse : EditError
  | batchedEditFailure : EditError
  | resultingFeatureCountInvalid (resulting target : Int) : EditError
deriving DecidableEq, Repr

/-- The metrics dictionary returned by `apply_edits_with_validation`
on success. -/
structure EditMetrics where
  featuresToAdd : Nat
  featuresToDelete : Nat
  initialFeatureCount : Int
  resultingFeatureCount : Int
  featureCountChange : Int
  targetFeatureCountDiscrepancy : Int
deriving DecidableEq, Repr

/-- Environment of one `apply_edits_with_validation` run: what the
remote service reports before the edits (count, delete-candidate
object ids), the outcomes of the mutating calls, and the recount
observed after the edits.  `Feat` abstracts the record payload of
`features_to_add`. -/
structure EditEnv (Feat : Type) where
  initialFeatureCount : Int
  objectIdsToDelete : List Int
  featuresToAdd : List Feat
  firstEditOutcome : EditRequestOutcome
  updatedObjectIdsToDelete : List Int
  batchedEditsOk : Bool
  resultingFeatureCount : Int

/-- `target_feature_count = initial_feature_count -
len(object_ids_to_delete) + len(self.features_to_add)`, computed from
the pre-edit queries only. -/
def targetFeatureCount {Feat : Type} (env : EditEnv Feat) : Int :=
  env.initialFeatureCount - env.objectIdsToDelete.length + env.featuresToAdd.length

/-- The edit phase of `apply_edits_with_validation`: try the
single-shot `_edit_request`; on an `aiohttp` error with status 413 or
504 fall back to `_batched_edits` (re-querying the delete candidates),
any other error re-raises. -/
def editPhase {Feat : Type} (env : EditEnv Feat) : Except EditError Unit :=
  match env.firstEditOutcome with
  | .ok => .ok ()
  | .httpErr s =>
      if s = 413 ∨ s = 504 then
        if env.batchedEditsOk then .ok () else .error .batchedEditFailure
      else .error (.clientResponse s)
  | .editFailureResponse => .error .editFailureResponse

/-- `apply_edits_with_validation`: compute the target count from the
pre-edit state, run the edit phase, recount, and fail with
`ResultingFeatureCountInvalid` whenever the recount differs from the
target; otherwise return the metrics dictionary. -/
def applyEditsWithValidation {Feat : Type} (env : EditEnv Feat) :
    Except EditError EditMetrics :=
  let target := targetFeatureCount env
  match editPhase env with
  | .error e => .error e
  | .ok () =>
      if env.resultingFeatureCount ≠ target then
        .error (.resultingFeatureCountInvalid env.resultingFeatureCount target)
      else
        .ok {
          featuresToAdd := env.featuresToAdd.length
          featuresToDelete := env.objectIdsToDelete.length
          initialFeatureCount := env.initialFeatureCount
          resultingFeatureCount := env.resultingFeatureCount
          featureCountChange := env.resultingFeatureCount - env.initialFeatureCount
          targetFeatureCountDiscrepancy := env.resultingFeatureCount - target }

/-- The concrete scenario of the specification: pre-count 100, 10
delete candidates, 5 adds, single-shot edit succeeds, recount 96. -/
def specScenario : EditEnv Unit :=
  { initialFeatureCount := 100
    objectIdsToDelete := [1, 2, 3, 4, 5, 6, 7, 8, 9, 10]
    featuresToAdd := [(), (), (), (), ()]
    firstEditOutcome := .ok
    updatedObjectIdsToDelete := []
    batchedEditsOk := true
    resultingFeatureCount := 96 }

end FeatureLayerEditor

/-! ## Retrying request dispatcher (`io/async_requester.py`) -/

namespace AsyncRequester

/-- A key of a `StatusCodePlanner`: an exact integer status code, or a
string whose digits form a leading-digit pattern. -/
inductive PlanKey where
  | intKey (code : Nat) : PlanKey
  | strKey (s : List Char) : PlanKey
deriving DecidableEq, Repr

/-- `StatusCodeInstructions`: optional `sleep_seconds` and
`attempt_increment` entries (defaults 2 and 1 applied at use sites). -/
structure StatusCodeInstructions where
  sleepSeconds : Option ℚ := none
  attemptIncrement : Option ℚ := none
deriving DecidableEq, Repr

/-- `StatusCodePlanner`: a `dict[int | str, StatusCodeInstructions]`,
modelled as its insertion-ordered item list. -/
abbrev StatusCodePlanner : Type := List (PlanKey × StatusCodeInstructions)

/-- Key matching as performed in `send_request`: an `int` key matches
by equality with `e.status`; a `str` key matches when the
concatenation of its digit characters equals the corresponding-length
leading slice of `str(e.status)`. -/
def matchesKey (k : PlanKey) (status : Nat) : Bool :=
  match k with
  | .intKey code => status == code
  | .strKey s =>
      let pattern := s.filter Char.isDigit
      pattern == (Nat.repr status).data.take pattern.length

/-- How `send_request` proceeds after catching an
`aiohttp.ClientResponseError`: re-raise the error, or retry with an
updated attempt counter after sleeping (sleep base recorded here; the
jitter applied on top of it is irrelevant to control flow). -/
inductive ErrorHandling where
  | reraise : ErrorHandling
  | retry (newAttemptCounter : ℚ) (baseSleepSeconds : ℚ) : ErrorHandling
deriving DecidableEq, Repr

/-- The `except aiohttp.ClientResponseError` branch of `send_request`:
scan the plan in insertion order; the first entry whose key matches
the status determines the attempt increment (default 1) and sleep
base (default 2); if the incremented counter reaches or exceeds
`retry_max_attempts` the error is re-raised, otherwise the request is
retried; if no entry matches, the error is re-raised immediately. -/
def handleErrorStatus (plan : StatusCodePlanner) (status : Nat)
    (attemptCounter retryMaxAttempts : ℚ) : ErrorHandling :=
  match plan with
  | [] => .reraise
  | (k, ins) :: rest =>
      if matchesKey k status then
        let c := attemptCounter + ins.attemptIncrement.getD 1
        if retryMaxAttempts ≤ c then .reraise
        else .retry c (ins.sleepSeconds.getD 2)
      else handleErrorStatus rest status attemptCounter retryMaxAttempts

/-- The overlapping-pattern test table of the specification:
`{"5": {sleep 30, increment 1}, 503: {sleep 8, increment 1}}`. -/
def overlapPlan : StatusCodePlanner :=
  [(.strKey ['5'], { sleepSeconds := some 30, attemptIncrement := some 1 }),
   (.intKey 503, { sleepSeconds := some 8, attemptIncrement := some 1 })]

end AsyncRequester

/-! ## Pagination protocol (`AsyncArcGisRequester.paginate_json_features`) -/

namespace Pagination

/-- One JSON page returned by the feature service: the (possibly
absent) `exceededTransferLimit` flag, and the page's records (their
number does not influence the pagination loop). -/
structure Page where
  exceededTransferLimit : Option Bool
  features : List Nat
deriving DecidableEq, Repr

/-- The `while paginating` loop of `paginate_json_features`, with the
server modelled as a function from `resultOffset` to the page it
returns, and a fuel bound (the Python loop has no bound; `none` means
the loop was still running when the fuel ran out).  Each element of
the result records the offset the request was issued with, alongside
the page received. -/
def paginateAux (server : Nat → Page) (maxRecordCount : Nat) :
    Nat → Nat → Option (List (Nat × Page))
  | 0, _ => none
  | fuel + 1, offset =>
      let p := server offset
      if p.exceededTransferLimit.getD false then
        (paginateAux server maxRecordCount fuel (offset + maxRecordCount)).map
          (fun rest => (offset, p) :: rest)
      else some [(offset, p)]

/-- `paginate_json_features`: start at `resultOffset = 0` with
`resultRecordCount = max_record_count`. -/
def paginateJsonFeatures (server : Nat → Page) (maxRecordCount fuel : Nat) :
    Option (List (Nat × Page)) :=
  paginateAux server maxRecordCount fuel 0

/-- Three-page test server (page size 1000): pages at offsets 0 and
1000 declare `exceededTransferLimit`, the page at offset 2000 does
not, and the pages carry different record counts. -/
def threePageServer : Nat → Page := fun offset =>
  if offset = 0 then ⟨some true, List.replicate 1000 7⟩
  else if offset = 1000 then ⟨some true, List.replicate 640 7⟩
  else ⟨none, List.replicate 212 7⟩

end Pagination

/-! ## Datetime filename encoding (`protocol/datetime_info.py`) -/

namespace DatetimeInfo

/-- Python `str.replace` scanning: at each position, if the pattern
`p :: pt` matches, emit the replacement and resume after the match,
otherwise copy one character.  (Non-overlapping, left to right.) -/
def pyReplaceCore (p : Char) (pt rep : List Char) : List Char → List Char
  | [] => []
  | c :: rest =>
      if c == p && pt.isPrefixOf rest then
        rep ++ pyReplaceCore p pt rep (rest.drop pt.length)
      else
        c :: pyReplaceCore p pt rep rest
termination_by l => l.length
decreasing_by
  · simp only [List.length_drop, List.length_cons]; omega
  · simp only [List.length_cons]; omega

/-- `s.replace(old, new)` for a non-empty `old` (the only way the
repository calls it). -/
def pyReplace (s old new : List Char) : List Char :=
  match old with
  | [] => s
  | p :: pt => pyReplaceCore p pt new s

/-- The `+00:00` UTC offset suffix. -/
def plusZoneChars : List Char := ['+', '0', '0', ':', '0', '0']

/-- `iso_file_naming`:
`iso_format.replace("+00:00", "Z").replace(":", "-")`. -/
def iso_file_naming (s : List Char) : List Char :=
  pyReplace (pyReplace s plusZoneChars ['Z']) [':'] ['-']

/-- `iso_file_parsing`: `filename_format.replace("Z", "+00:00")`,
then, when a `T` is present, split at the first `T` and replace `-`
by `:` in the time part only. -/
def iso_file_parsing (s : List Char) : List Char :=
  let result := pyReplace s ['Z'] plusZoneChars
  if 'T' ∈ result then
    let date_part := result.takeWhile fun c => c != 'T'
    let time_part := (result.dropWhile fun c => c != 'T').tail
    date_part ++ 'T' :: pyReplace time_part ['-'] [':']
  else result

/-- The digits of a UTC instant at millisecond precision, as produced
by `datetime.isoformat(timespec="milliseconds")` on a timezone-aware
UTC datetime: `YYYY-MM-DDThh:mm:ss.fff+00:00`. -/
structure IsoMsParts where
  y1 : Fin 10
  y2 : Fin 10
  y3 : Fin 10
  y4 : Fin 10
  mo1 : Fin 10
  mo2 : Fin 10
  d1 : Fin 10
  d2 : Fin 10
  h1 : Fin 10
  h2 : Fin 10
  mi1 : Fin 10
  mi2 : Fin 10
  s1 : Fin 10
  s2 : Fin 10
  f1 : Fin 10
  f2 : Fin 10
  f3 : Fin 10
deriving DecidableEq

/-- The character of one decimal digit. -/
def dChar (d : Fin 10) : Char := Char.ofNat (48 + d.val)

/-- `YYYY-MM-DD`. -/
def dateChars (p : IsoMsParts) : List Char :=
  [dChar p.y1, dChar p.y2, dChar p.y3, dChar p.y4, '-',
   dChar p.mo1, dChar p.mo2, '-', dChar p.d1, dChar p.d2]

/-- `hh:mm:ss.fff`. -/
def timeChars (p : IsoMsParts) : List Char :=
  [dChar p.h1, dChar p.h2, ':', dChar p.mi1, dChar p.mi2, ':',
   dChar p.s1, dChar p.s2, '.', dChar p.f1, dChar p.f2, dChar p.f3]

/-- `hh-mm-ss.fff` (the filesystem-safe time part). -/
def fileTimeChars (p : IsoMsParts) : List Char :=
  [dChar p.h1, dChar p.h2, '-', dChar p.mi1, dChar p.mi2, '-',
   dChar p.s1, dChar p.s2, '.', dChar p.f1, dChar p.f2, dChar p.f3]

/-- The full ISO-8601 string `YYYY-MM-DDThh:mm:ss.fff+00:00`. -/
def isoChars (p : IsoMsParts) : List Char :=
  dateChars p ++ 'T' :: (timeChars p ++ plusZoneChars)

/-- The filesystem-safe name `YYYY-MM-DDThh-mm-ss.fffZ`. -/
def fileChars (p : IsoMsParts) : List Char :=
  dateChars p ++ 'T' :: (fileTimeChars p ++ ['Z'])

end DatetimeInfo

/-! ## Change detection (`gis/gdf_change_detection.py`) -/

namespace ChangeDetection

/-- A (Geo)DataFrame: an index (`keys`, in row order), a list of
column names, and the cell contents, with `none` standing for a
missing value (NaN / None, i.e. what `isna` reports). -/
structure Gdf (K V : Type) where
  keys : List K
  cols : List String
  cell : K → String → Option V

/-- `gdf.loc[mask]`: keep the rows whose key satisfies the mask. -/
def locFilter {K V : Type} (g : Gdf K V) (p : K → Bool) : Gdf K V :=
  { g with keys := g.keys.filter p }

/-- One cell of `(new_retained_gdf == old_retained_gdf) |
(new_retained_gdf.isna() & old_retained_gdf.isna())`: equality of
present values, with two missing values also counting as equal. -/
def comparisonResult {V : Type} [DecidableEq V] (a b : Option V) : Bool :=
  (match a, b with
   | some x, some y => decide (x = y)
   | _, _ => false) || (a.isNone && b.isNone)

/-- One row of `comparison_result.all(axis=1)`. -/
def rowUnmodified {K V : Type} [DecidableEq V] (new old : Gdf K V) (k : K) :
    Bool :=
  new.cols.all fun c => comparisonResult (new.cell k c) (old.cell k c)

/-- Result of `gdf_index_based_change_detection`. -/
structure IndexBasedResult (K V : Type) where
  added : Gdf K V
  deleted : Gdf K V
  modified : Gdf K V

/-- `gdf_index_based_change_detection`: rows only in the new index are
added, rows only in the old index are deleted, rows present in both
whose aligned field values differ (two missing values counting as
equal) are modified. -/
def gdf_index_based_change_detection {K V : Type} [DecidableEq K]
    [DecidableEq V] (new_gdf old_gdf : Gdf K V) : IndexBasedResult K V :=
  let deleted_gdf := locFilter old_gdf fun k => !(decide (k ∈ new_gdf.keys))
  let added_gdf := locFilter new_gdf fun k => !(decide (k ∈ old_gdf.keys))
  let new_retained_gdf := locFilter new_gdf fun k => decide (k ∈ old_gdf.keys)
  let old_retained_gdf := locFilter old_gdf fun k => decide (k ∈ new_gdf.keys)
  let modified_gdf := locFilter new_retained_gdf fun k =>
    !(rowUnmodified new_retained_gdf old_retained_gdf k)
  { added := added_gdf, deleted := deleted_gdf, modified := modified_gdf }

/-- `new_gdf[hash_column] = ...`: in-place assignment of a full
column (appended when the name is new, overwritten otherwise). -/
def setColumn {K V : Type} (g : Gdf K V) (c : String) (vals : K → V) :
    Gdf K V :=
  { g with
    cols := if g.cols.contains c then g.cols else g.cols ++ [c]
    cell := fun k col => if col = c then some (vals k) else g.cell k col }

/-- `gdf.drop(columns=c)`: returns a copy without the column, leaving
`gdf` itself untouched. -/
def pyDrop {K V : Type} (g : Gdf K V) (c : String) : Gdf K V :=
  { g with
    cols := g.cols.filter fun col => col ≠ c
    cell := fun k col => if col = c then none else g.cell k col }

/-- `gdf_index_based_change_detection` in state-passing form: every
pandas operation it performs (`loc`, `isin`, `==`, `isna`, `all`)
reads but never writes its operands, so the post-call states of the
two inputs are the inputs themselves. -/
def gdf_index_based_change_detection_state {K V : Type} [DecidableEq K]
    [DecidableEq V] (new_gdf old_gdf : Gdf K V) :
    IndexBasedResult K V × Gdf K V × Gdf K V :=
  (gdf_index_based_change_detection new_gdf old_gdf, new_gdf, old_gdf)

/-- `gdf_no_index_change_detection` in state-passing form, returning
(`unique_new`, `unique_old`) together with the post-call states of
`new_gdf` and `old_gdf`.  `hash_column` is the runtime-generated uuid
column name and `hashNew` / `hashOld` the per-row content hashes
computed by `pd.util.hash_pandas_object(..., index=False)`.  The
column assignments mutate the inputs; the `finally` block calls
`gdf.drop(columns=hash_column, errors="ignore")` and discards the
returned copies, so the post-call states keep the hash column. -/
def gdf_no_index_change_detection {K V : Type} [DecidableEq V]
    (hash_column : String) (hashNew hashOld : K → V)
    (new_gdf old_gdf : Gdf K V) :
    (Gdf K V × Gdf K V) × Gdf K V × Gdf K V :=
  let new1 := setColumn new_gdf hash_column hashNew
  let old1 := setColumn old_gdf hash_column hashOld
  let new_hash_set := new1.keys.map hashNew
  let old_hash_set := old1.keys.map hashOld
  let unique_new_gdf := locFilter new1 fun k =>
    !(decide (hashNew k ∈ old_hash_set))
  let unique_old_gdf := locFilter old1 fun k =>
    !(decide (hashOld k ∈ new_hash_set))
  let _dropped_new := pyDrop new1 hash_column
  let _dropped_old := pyDrop old1 hash_column
  ((unique_new_gdf, unique_old_gdf), new1, old1)

/-- A one-column, one-row input frame exhibiting the mutation. -/
def tinyFrame : Gdf Nat Nat :=
  { keys := [0], cols := ["a"], cell := fun _ _ => some 1 }

end ChangeDetection

/-! ## Snapshot cache manager (`io/file_cache_manager.py`) -/

namespace FileCacheManager

/-- What the filesystem holds at a path. -/
inductive FileKind where
  | file : FileKind
  | dir : FileKind
deriving DecidableEq, Repr

/-- A Python `datetime`: the instant it denotes and its `tzinfo`
(`none` = naive; `some 0` = `timezone.utc`; `some z` = some other
fixed offset). -/
structure PyDatetime where
  instant : ℤ
  tzinfo : Option ℤ
deriving DecidableEq, Repr

/-- The loop body of Python `min(iterable, key=...)` over manifest
entries keyed by their datetime: keep the current best, replacing it
only on a strictly smaller key. -/
def pyMinGo {P : Type} (best : P × ℤ) : List (P × ℤ) → P × ℤ
  | [] => best
  | x :: t => pyMinGo (if x.2 < best.2 then x else best) t

/-- `min(manifest, key=manifest.get)`: the first entry of minimal
datetime in iteration order (`none` on an empty manifest, where
Python would raise `ValueError`). -/
def pyMinBy {P : Type} : List (P × ℤ) → Option (P × ℤ)
  | [] => none
  | e :: rest => some (pyMinGo e rest)

lemma pyMinGo_mem {P : Type} (best : P × ℤ) (l : List (P × ℤ)) :
    pyMinGo best l ∈ best :: l := by
  induction l generalizing best with
  | nil => exact List.mem_cons_self _ _
  | cons x t ih =>
      rw [pyMinGo]
      by_cases hx : x.2 < best.2
      · rw [if_pos hx]
        rcases List.mem_cons.mp (ih x) with h | h
        · rw [h]; exact List.mem_cons_of_mem _ (List.mem_cons_self _ _)
        · exact List.mem_cons_of_mem _ (List.mem_cons_of_mem _ h)
      · rw [if_neg hx]
        rcases List.mem_cons.mp (ih best) with h | h
        · rw [h]; exact List.mem_cons_self _ _
        · exact List.mem_cons_of_mem _ (List.mem_cons_of_mem _ h)

lemma pyMinBy_mem {P : Type} {l : List (P × ℤ)} {e : P × ℤ}
    (h : pyMinBy l = some e) : e ∈ l := by
  cases l with
  | nil => simp [pyMinBy] at h
  | cons a rest =>
      simp only [pyMinBy, Option.some_inj] at h
      rw [← h]
      exact pyMinGo_mem a rest

lemma length_filter_lt_of_mem {α : Type} (l : List α) (p : α → Bool) (a : α)
    (ha : a ∈ l) (hpa : p a = false) : (l.filter p).length < l.length := by
  induction l with
  | nil => simp at ha
  | cons b t ih =>
      rcases List.mem_cons.mp ha with rfl | hmem
      · rw [List.filter_cons, hpa]
        simp only [Bool.false_eq_true, if_false, List.length_cons]
        exact Nat.lt_succ_of_le (List.length_filter_le p t)
      · rw [List.filter_cons]
        by_cases hb : p b = true
        · simp only [hb, if_true, List.length_cons]
          exact Nat.succ_lt_succ (ih hmem)
        · simp only [Bool.not_eq_true] at hb
          simp only [hb, Bool.false_eq_true, if_false, List.length_cons]
          exact Nat.lt_succ_of_lt (ih hmem)

/-- `_purge_any_expired`: delete every manifest entry whose age
`now - creation` strictly exceeds `max_age`, keeping the rest. -/
def purgeAnyExpired {P : Type} (now maxAge : ℤ) (manifest : List (P × ℤ)) :
    List (P × ℤ) :=
  manifest.filter fun e => !(decide (maxAge < now - e.2))

/-- `_purge_oldest_while_max_count_exceeded` for one file-extension
group: while the manifest holds more than `max_count` entries, delete
the single oldest entry (`min(manifest, key=manifest.get)`,
`del manifest[oldest]`). -/
def purgeOldestWhileMaxCountExceeded {P : Type} [DecidableEq P]
    (maxCount : ℕ) (manifest : List (P × ℤ)) : List (P × ℤ) :=
  if manifest.length ≤ maxCount then manifest
  else
    match _hm : pyMinBy manifest with
    | none => manifest
    | some e =>
        purgeOldestWhileMaxCountExceeded maxCount
          (manifest.filter fun x => !(decide (x.1 = e.1)))
termination_by manifest.length
decreasing_by
  exact length_filter_lt_of_mem _ _ _ (pyMinBy_mem _hm) (by simp)

/-- Five snapshots of one extension group, newest first. -/
def fiveSnapshots : List (ℕ × ℤ) := [(1, 50), (2, 40), (3, 30), (4, 20), (5, 10)]

/-- Errors `CacheManifest` construction and `load_manifest` can
raise: `FileNotFoundError`, `ValueError` for a directory path, a
`ValueError` for a naive or non-UTC datetime, and `BadCacheFileName`
for an unparseable snapshot stem.  (The `TypeError` checks for
non-`Path` keys and non-`datetime` values are static in this
embedding.) -/
inductive ManifestError where
  | fileNotFound : ManifestError
  | notAFile : ManifestError
  | naiveOrNonUtc : ManifestError
  | badCacheFileName : ManifestError
deriving DecidableEq, Repr

/-- The validation `CacheManifest.__init__` performs on one entry, in
source order: the path must exist, must not be a directory, and the
creation datetime's `tzinfo` must be exactly `timezone.utc`. -/
def entryError {P : Type} (fs : P → Option FileKind) (e : P × PyDatetime) :
    Option ManifestError :=
  match fs e.1 with
  | none => some .fileNotFound
  | some .dir => some .notAFile
  | some .file => if e.2.tzinfo = some 0 then none else some .naiveOrNonUtc

/-- `sorted(raw_dict, key=raw_dict.get, reverse=True)`: entries
ordered by creation datetime, newest first. -/
def sortManifestDesc {P : Type} (raw : List (P × PyDatetime)) :
    List (P × PyDatetime) :=
  @List.insertionSort _ (fun a b => b.2.instant ≤ a.2.instant)
    (fun _ _ => Int.decLe _ _) raw

/-- `CacheManifest.__init__`: validate every entry (first violation
in iteration order raises), then materialize sorted newest-first. -/
def mkCacheManifest {P : Type} (fs : P → Option FileKind)
    (raw : List (P × PyDatetime)) :
    Except ManifestError (List (P × PyDatetime)) :=
  match raw.findSome? (entryError fs) with
  | some err => .error err
  | none => .ok (sortManifestDesc raw)

/-- The accumulation loop of `load_manifest`: each globbed file's
stem is parsed (`datetime_from_iso(iso_file_parsing(stem))`, here the
pre-computed parse outcome); the first failure raises
`BadCacheFileName`. -/
def collectParsed {P : Type} :
    List (P × Option PyDatetime) → Except ManifestError (List (P × PyDatetime))
  | [] => .ok []
  | (_, none) :: _ => .error .badCacheFileName
  | (p, some d) :: rest => (collectParsed rest).map fun t => (p, d) :: t

/-- `load_manifest`: accumulate the parsed glob results, then build a
`CacheManifest`. -/
def loadManifest {P : Type} (fs : P → Option FileKind)
    (globResults : List (P × Option PyDatetime)) :
    Except ManifestError (List (P × PyDatetime)) :=
  match collectParsed globResults with
  | .error e => .error e
  | .ok raw => mkCacheManifest fs raw

/-- `parse_manifest`: truncate an existing manifest to its
`target_length` newest entries and rebuild a `CacheManifest` from the
truncation. -/
def parseManifest {P : Type} (fs : P → Option FileKind)
    (manifest : List (P × PyDatetime)) (targetLength : ℕ) :
    Except ManifestError (List (P × PyDatetime)) :=
  mkCacheManifest fs (manifest.take targetLength)

end FileCacheManager

/-! ## Resource sync unit (`gis/input_feature_layer.py`),
`load_latest_features` -/

namespace InputLayer

/-- Errors relevant to `load_latest_features`. -/
inductive PyError where
  | typeError : PyError
  | resourceNotInitialized : PyError
deriving DecidableEq, Repr

/-- The fragment of Python values flowing into the two-argument
`iter` call: `load_latest_features` passes the list returned by
`load_feature_history`. -/
inductive PyObj (α : Type) where
  | list (xs : List α) : PyObj α
deriving DecidableEq, Repr

/-- A Python list is not callable. -/
def isCallable {α : Type} : PyObj α → Bool
  | .list _ => false

/-- Two-argument `iter(callable, sentinel)`: raises `TypeError`
unless its first argument is callable. -/
def pyIterTwoArg {α : Type} (o : PyObj α) (sentinel : Option α) :
    Except PyError (PyObj α × Option α) :=
  if isCallable o then .ok (o, sentinel) else .error .typeError

/-- `load_latest_features`, modelled from the point where
`load_feature_history` has produced `feature_history` (a list):
`return next(iter(feature_history, None))`.  The
`thread_executor` requirement checked by `load_feature_history` is
the boolean parameter. -/
def loadLatestFeatures {α : Type} (threadExecutorSet : Bool)
    (feature_history : List α) : Except PyError (Option α) :=
  if !threadExecutorSet then .error .resourceNotInitialized
  else
    match pyIterTwoArg (.list feature_history) none with
    | .error e => .error e
    | .ok _ => .ok feature_history.head?

/-- One page response as `refresh_features` sees it: whether it is an
ArcGIS error payload (rejected by `validate_arcgis_json`), and its
`features` and `spatialReference` keys when present. -/
structure FeatureResp (SR Feat : Type) where
  isErrorResponse : Bool
  features : Option (List Feat)
  spatialReference : Option SR

/-- `_validate_feature_json_responses` on one page: not an error
payload, and both expected keys present. -/
def validResp {SR Feat : Type} (r : FeatureResp SR Feat) : Bool :=
  !r.isErrorResponse && r.features.isSome && r.spatialReference.isSome

/-- Errors `refresh_features` can raise.  In the source both
`invalidFeaturesResponse` and `incompleteFeatures` are the exception
class `InvalidFeaturesResponse` (page validation failure versus fewer
fetched records than the authoritative count). -/
inductive RefreshError where
  | resourceNotInitialized : RefreshError
  | paginationNotSupported : RefreshError
  | invalidFeaturesResponse : RefreshError
  | unclearSpatialReference : RefreshError
  | incompleteFeatures (returned target : ℕ) : RefreshError
deriving DecidableEq, Repr

/-- The records of all pages in page order
(`[feat for resp in json_responses for feat in resp["features"]]`). -/
def unionFeatures {SR Feat : Type} (responses : List (FeatureResp SR Feat)) :
    List Feat :=
  (responses.map fun r => r.features.getD []).flatten

/-- `refresh_features`, in state-passing form over the features-cache
contents: validate required resources and pagination support, fetch
(`targetFeatureCount` from the count endpoint, `responses` from the
pagination loop), validate every page, require a single spatial
reference across pages, then compare the union of fetched records
against the authoritative count — fewer records is a hard error —
and only then append the snapshot to the cache. -/
def refreshFeatures {SR Feat : Type} [DecidableEq SR]
    (resourcesSet supportsPagination : Bool) (targetFeatureCount : ℕ)
    (responses : List (FeatureResp SR Feat)) (cache : List (List Feat)) :
    Except RefreshError Unit × List (List Feat) :=
  if !resourcesSet then (.error .resourceNotInitialized, cache)
  else if !supportsPagination then (.error .paginationNotSupported, cache)
  else if !(responses.all validResp) then
    (.error .invalidFeaturesResponse, cache)
  else if (responses.map fun r => r.spatialReference).dedup.length ≠ 1 then
    (.error .unclearSpatialReference, cache)
  else
    let feats := unionFeatures responses
    if feats.length < targetFeatureCount then
      (.error (.incompleteFeatures feats.length targetFeatureCount), cache)
    else (.ok (), cache ++ [feats])

end InputLayer

open FeatureLayerEditor

/-- C1: `apply_edits_with_validation` computes the target count as
(pre-edit count) − (number of delete candidates) + (number of adds),
as a function of the pre-edit state only (unchanged by the edit
outcomes and the recount); whenever the edit phase completes, it fails
with a count-mismatch error exactly when the recount differs from that
target, the error naming the recount and the target.  In the concrete
scenario (pre 100, 10 deletes, 5 adds, recount 96) it fails with
`ResultingFeatureCountInvalid 96 95`, a discrepancy of
target − recount = −1. -/
theorem apply_edits_with_validation_count_reconciliation :
    (∀ (Feat : Type) (env : EditEnv Feat),
      targetFeatureCount env =
        env.initialFeatureCount - env.objectIdsToDelete.length +
          env.featuresToAdd.length) ∧
    (∀ (Feat : Type) (env : EditEnv Feat) (fo : EditRequestOutcome)
        (bo : Bool) (rc : Int),
      targetFeatureCount
        { env with firstEditOutcome := fo, batchedEditsOk := bo,
                   resultingFeatureCount := rc } =
        targetFeatureCount env) ∧
    (∀ (Feat : Type) (env : EditEnv Feat), editPhase env = .ok () →
      ((∃ r t, applyEditsWithValidation env =
          .error (.resultingFeatureCountInvalid r t)) ↔
        env.resultingFeatureCount ≠ targetFeatureCount env)) ∧
    (∀ (Feat : Type) (env : EditEnv Feat), editPhase env = .ok () →
      env.resultingFeatureCount ≠ targetFeatureCount env →
      applyEditsWithValidation env =
        .error (.resultingFeatureCountInvalid env.resultingFeatureCount
          (targetFeatureCount env))) ∧
    (applyEditsWithValidation specScenario =
        .error (.resultingFeatureCountInvalid 96 95) ∧
      targetFeatureCount specScenario - specScenario.resultingFeatureCount = -1) := by
  refine ⟨fun Feat env => rfl, fun Feat env fo bo rc => rfl, ?_, ?_, ⟨rfl, by decide⟩⟩
  · intro Feat env hok
    by_cases hne : env.resultingFeatureCount = targetFeatureCount env
    · simp [applyEditsWithValidation, hok, hne]
    · simp [applyEditsWithValidation, hok, hne]
  · intro Feat env hok hne
    simp [applyEditsWithValidation, hok, hne]

/-- Witness for C1 at the concrete scenario: the edit phase completes
and the recount 96 differs from the target 95, so the run fails with
the count-mismatch error. -/
theorem apply_edits_with_validation_count_reconciliation_witness :
    applyEditsWithValidation specScenario =
      .error (.resultingFeatureCountInvalid 96 95) :=
  apply_edits_with_validation_count_reconciliation.2.2.2.1 Unit specScenario
    rfl (by decide)

open AsyncRequester

/-- Scanning a plan whose leading segment contains no matching key
behaves like scanning the remainder of the plan. -/
lemma handleErrorStatus_append_of_no_match (pre rest : StatusCodePlanner)
    (status : Nat) (c m : ℚ)
    (hpre : ∀ p ∈ pre, matchesKey p.1 status = false) :
    handleErrorStatus (pre ++ rest) status c m =
      handleErrorStatus rest status c m := by
  induction pre with
  | nil => rfl
  | cons p pre ih =>
      obtain ⟨k, ins⟩ := p
      have hk : matchesKey k status = false := hpre (k, ins) (List.mem_cons_self _ _)
      simp only [List.cons_append, handleErrorStatus, hk, Bool.false_eq_true,
        if_false]
      exact ih fun q hq => hpre q (List.mem_cons_of_mem _ hq)

/-- A plan with no matching key yields an immediate re-raise. -/
lemma handleErrorStatus_of_no_match (plan : StatusCodePlanner)
    (status : Nat) (c m : ℚ)
    (h : ∀ p ∈ plan, matchesKey p.1 status = false) :
    handleErrorStatus plan status c m = .reraise := by
  have := handleErrorStatus_append_of_no_match plan [] status c m h
  simpa using this

/-- C3: `send_request` handles an HTTP error status according to the
first entry of the retry-policy table, in insertion order, whose key
matches the status (integer keys by equality, string keys by their
digits being a leading prefix of the status code); overlap between
entries is resolved purely by insertion order (in the table
`{"5": sleep 30, 503: sleep 8}` the leading string entry wins for
status 503); a status matching no entry is re-raised immediately with
no retry; and when the incremented attempt counter reaches or exceeds
`retry_max_attempts`, the terminal error is re-raised. -/
theorem send_request_retry_policy_first_match :
    (∀ (plan : StatusCodePlanner) (status : Nat) (c m : ℚ),
      (∀ p ∈ plan, matchesKey p.1 status = false) →
      handleErrorStatus plan status c m = .reraise) ∧
    (∀ (pre post : StatusCodePlanner) (k : PlanKey)
        (ins : StatusCodeInstructions) (status : Nat) (c m : ℚ),
      (∀ p ∈ pre, matchesKey p.1 status = false) →
      matchesKey k status = true →
      handleErrorStatus (pre ++ (k, ins) :: post) status c m =
        if m ≤ c + ins.attemptIncrement.getD 1 then .reraise
        else .retry (c + ins.attemptIncrement.getD 1) (ins.sleepSeconds.getD 2)) ∧
    (∀ (pre post : StatusCodePlanner) (k : PlanKey)
        (ins : StatusCodeInstructions) (status : Nat) (c m : ℚ),
      (∀ p ∈ pre, matchesKey p.1 status = false) →
      matchesKey k status = true →
      m ≤ c + ins.attemptIncrement.getD 1 →
      handleErrorStatus (pre ++ (k, ins) :: post) status c m = .reraise) ∧
    handleErrorStatus overlapPlan 503 0 3 = .retry 1 30 := by
  have hfirst : ∀ (pre post : StatusCodePlanner) (k : PlanKey)
      (ins : StatusCodeInstructions) (status : Nat) (c m : ℚ),
      (∀ p ∈ pre, matchesKey p.1 status = false) →
      matchesKey k status = true →
      handleErrorStatus (pre ++ (k, ins) :: post) status c m =
        if m ≤ c + ins.attemptIncrement.getD 1 then .reraise
        else .retry (c + ins.attemptIncrement.getD 1) (ins.sleepSeconds.getD 2) := by
    intro pre post k ins status c m hpre hk
    rw [handleErrorStatus_append_of_no_match pre _ status c m hpre]
    simp [handleErrorStatus, hk]
  refine ⟨handleErrorStatus_of_no_match, hfirst, ?_, ?_⟩
  · intro pre post k ins status c m hpre hk hm
    rw [hfirst pre post k ins status c m hpre hk, if_pos hm]
  · have hm : matchesKey (.strKey ['5']) 503 = true := by decide
    have hn : ¬ ((3 : ℚ) ≤ 1) := by norm_num
    simp [overlapPlan, handleErrorStatus, hm, hn]

/-- Witness for C3: in the plan `[(500 exact), ("5xx" pattern)]` the
pattern entry is the first match for status 503 (the 500 entry does
not match), and with counter 0, increment default 1 and budget 3 the
request is retried with the default sleep base 2. -/
theorem send_request_retry_policy_first_match_witness :
    handleErrorStatus
      [(.intKey 500, {}), (.strKey ['5', 'x', 'x'], {})] 503 0 3 =
      .retry 1 2 := by
  have h := send_request_retry_policy_first_match.2.1
    [(.intKey 500, {})] [] (.strKey ['5', 'x', 'x']) {} 503 0 3
    (by decide) (by decide)
  simpa using h

open Pagination

/-- Offsets requested by the pagination loop starting from `offset`
advance by exactly `maxRecordCount` per iteration. -/
lemma paginateAux_offsets (server : Nat → Page) (m : Nat) :
    ∀ (fuel offset : Nat) (l : List (Nat × Page)),
      paginateAux server m fuel offset = some l →
      l.map Prod.fst = (List.range l.length).map (fun i => offset + i * m) := by
  intro fuel
  induction fuel with
  | zero => intro offset l h; simp [paginateAux] at h
  | succ fuel ih =>
      intro offset l h
      rw [paginateAux] at h
      by_cases hflag : (server offset).exceededTransferLimit.getD false = true
      · rw [if_pos hflag] at h
        cases haux : paginateAux server m fuel (offset + m) with
        | none => rw [haux] at h; simp at h
        | some rest =>
            rw [haux] at h
            simp at h
            subst h
            have hrec := ih (offset + m) rest haux
            simp only [List.map_cons, List.length_cons, hrec]
            rw [List.range_succ_eq_map]
            simp only [List.map_cons, List.map_map]
            congr 1
            · simp
            · apply List.map_congr_left
              intro i _
              simp only [Function.comp_apply, Nat.succ_mul, Nat.succ_eq_add_one]
              ring
      · rw [if_neg hflag] at h
        simp only [Option.some_inj] at h
        subst h
        simp [List.range_succ]

/-- The pagination loop returns a nonempty list whose last page lacks
the exceeded flag and whose earlier pages all carry it. -/
lemma paginateAux_flags (server : Nat → Page) (m : Nat) :
    ∀ (fuel offset : Nat) (l : List (Nat × Page)),
      paginateAux server m fuel offset = some l →
      ∃ init last, l = init ++ [last] ∧
        (∀ p ∈ init, p.2.exceededTransferLimit.getD false = true) ∧
        last.2.exceededTransferLimit.getD false = false := by
  intro fuel
  induction fuel with
  | zero => intro offset l h; simp [paginateAux] at h
  | succ fuel ih =>
      intro offset l h
      rw [paginateAux] at h
      by_cases hflag : (server offset).exceededTransferLimit.getD false = true
      · rw [if_pos hflag] at h
        cases haux : paginateAux server m fuel (offset + m) with
        | none => rw [haux] at h; simp at h
        | some rest =>
            rw [haux] at h
            simp at h
            subst h
            obtain ⟨init, last, hsplit, hinit, hlast⟩ := ih (offset + m) rest haux
            refine ⟨(offset, server offset) :: init, last, by simp [hsplit], ?_, hlast⟩
            intro p hp
            rcases List.mem_cons.mp hp with h1 | h2
            · subst h1; exact hflag
            · exact hinit p h2
      · rw [if_neg hflag] at h
        simp only [Option.some_inj] at h
        subst h
        exact ⟨[], (offset, server offset), rfl, by simp,
          Bool.not_eq_true _ ▸ hflag⟩

/-- C4: `paginate_json_features` keeps fetching while the most recent
page declares `exceededTransferLimit` and stops the first time the
flag is absent or false, returning the pages in request order; the
offset of the i-th request is exactly `i * max_record_count`
regardless of how many records each page contained; and for a server
whose pages report `[exceeded, exceeded, no flag]` exactly 3 pages
are fetched, at offsets 0, 1000, 2000. -/
theorem paginate_json_features_loop :
    (∀ (server : Nat → Page) (m fuel : Nat) (l : List (Nat × Page)),
      paginateJsonFeatures server m fuel = some l →
      ∃ init last, l = init ++ [last] ∧
        (∀ p ∈ init, p.2.exceededTransferLimit.getD false = true) ∧
        last.2.exceededTransferLimit.getD false = false) ∧
    (∀ (server : Nat → Page) (m fuel : Nat) (l : List (Nat × Page)),
      paginateJsonFeatures server m fuel = some l →
      l.map Prod.fst = (List.range l.length).map (fun i => i * m)) ∧
    ((paginateJsonFeatures threePageServer 1000 10).map
        (fun l => l.map Prod.fst) = some [0, 1000, 2000]) := by
  refine ⟨fun server m fuel l h => paginateAux_flags server m fuel 0 l h,
    fun server m fuel l h => ?_, by rfl⟩
  have := paginateAux_offsets server m fuel 0 l h
  simpa using this

/-- Witness for C4: the three-page server yields a run of the loop on
which the general flag characterization applies; the concrete result
has its last page without the flag and both earlier pages with it. -/
theorem paginate_json_features_loop_witness :
    ∃ init last,
      [(0, threePageServer 0), (1000, threePageServer 1000),
        (2000, threePageServer 2000)] = init ++ [last] ∧
      (∀ p ∈ init, p.2.exceededTransferLimit.getD false = true) ∧
      last.2.exceededTransferLimit.getD false = false :=
  paginate_json_features_loop.1 threePageServer 1000 10 _ (by rfl)

open ChangeDetection

/-- C2: the claim that neither change-detection strategy mutates its
inputs fails on `gdf_no_index_change_detection`.  The index-based
strategy leaves both input states unchanged, but the no-index
strategy assigns a hash column to both inputs and the `finally`
cleanup calls `drop` without `inplace=True`, discarding the dropped
copy — on the one-column input frame the post-call state of each
input has gained the hash column. -/
theorem no_index_change_detection_mutates_inputs :
    (∀ (K V : Type) (_iK : DecidableEq K) (_iV : DecidableEq V)
        (new_gdf old_gdf : Gdf K V),
      (gdf_index_based_change_detection_state new_gdf old_gdf).2 =
        (new_gdf, old_gdf)) ∧
    (gdf_no_index_change_detection "h" (fun _ => 5) (fun _ => 5)
        tinyFrame tinyFrame).2.1.cols = ["a", "h"] ∧
    tinyFrame.cols = ["a"] ∧
    (gdf_no_index_change_detection "h" (fun _ => 5) (fun _ => 5)
        tinyFrame tinyFrame).2.1.cols ≠ tinyFrame.cols ∧
    (gdf_no_index_change_detection "h" (fun _ => 5) (fun _ => 5)
        tinyFrame tinyFrame).2.2.cols ≠ tinyFrame.cols := by
  refine ⟨fun K V _iK _iV new_gdf old_gdf => rfl, rfl, rfl, by decide, by decide⟩

/-- C8: comparing a collection against itself with
`gdf_index_based_change_detection` yields empty added, deleted and
modified sets, and two missing values in the same aligned cell count
as equal (`comparisonResult none none = true`). -/
theorem index_based_change_detection_self_empty {K V : Type}
    [DecidableEq K] [DecidableEq V] (g : Gdf K V) :
    (gdf_index_based_change_detection g g).added.keys = [] ∧
    (gdf_index_based_change_detection g g).deleted.keys = [] ∧
    (gdf_index_based_change_detection g g).modified.keys = [] ∧
    comparisonResult (none : Option V) none = true := by
  have hcr : ∀ (a : Option V), comparisonResult a a = true := by
    intro a; cases a <;> simp [comparisonResult]
  refine ⟨?_, ?_, ?_, hcr none⟩
  · simp [gdf_index_based_change_detection, locFilter, List.filter_eq_nil_iff]
  · simp [gdf_index_based_change_detection, locFilter, List.filter_eq_nil_iff]
  · simp only [gdf_index_based_change_detection, locFilter,
      List.filter_eq_nil_iff]
    intro k hk
    have : rowUnmodified
        { g with keys := g.keys.filter fun k => decide (k ∈ g.keys) }
        { g with keys := g.keys.filter fun k => decide (k ∈ g.keys) } k = true := by
      simp [rowUnmodified, List.all_eq_true]
      intro c hc
      exact hcr (g.cell k c)
    simp [this]

open DatetimeInfo

/-- A digit character is none of the structural characters of the
canonical ISO / filename forms. -/
lemma dChar_ne_structural (d : Fin 10) :
    dChar d ≠ '+' ∧ dChar d ≠ ':' ∧ dChar d ≠ 'Z' ∧ dChar d ≠ 'T' ∧
      dChar d ≠ '-' ∧ dChar d ≠ '.' := by
  revert d; decide

lemma dChar_ite_colon (d : Fin 10) :
    (if dChar d == ':' then '-' else dChar d) = dChar d := by
  revert d; decide

lemma dChar_ite_hyphen (d : Fin 10) :
    (if dChar d == '-' then ':' else dChar d) = dChar d := by
  revert d; decide

lemma dChar_bne_T (d : Fin 10) : (dChar d != 'T') = true := by
  revert d; decide

/-- Python replace scanning skips over a leading segment free of the
pattern's first character. -/
lemma pyReplaceCore_append (p : Char) (pt rep : List Char) (xs ys : List Char)
    (h : ∀ c ∈ xs, c ≠ p) :
    pyReplaceCore p pt rep (xs ++ ys) = xs ++ pyReplaceCore p pt rep ys := by
  induction xs with
  | nil => simp
  | cons c xs ih =>
      have hc : (c == p) = false := by
        simp only [beq_eq_false_iff_ne, ne_eq]
        exact h c (List.mem_cons_self c xs)
      rw [List.cons_append, pyReplaceCore.eq_2]
      simp only [hc, Bool.false_and, Bool.false_eq_true, if_false]
      rw [ih fun a ha => h a (List.mem_cons_of_mem _ ha)]
      rfl

/-- Python replace with a single-character pattern and a
single-character replacement is a character map. -/
lemma pyReplaceCore_single (a b : Char) (l : List Char) :
    pyReplaceCore a [] [b] l = l.map fun c => if c == a then b else c := by
  induction l with
  | nil => simp [pyReplaceCore]
  | cons c rest ih =>
      rw [pyReplaceCore.eq_2]
      by_cases hc : c = a
      · subst hc
        simp [List.isPrefixOf, ih]
      · have hb : (c == a) = false := by simp [hc]
        simp [List.isPrefixOf, hb, ih, hc]

/-- `takeWhile` / `dropWhile` with the first-`T` split predicate, on a
list whose leading segment is `T`-free. -/
lemma takeWhile_dropWhile_T (xs ys : List Char)
    (h : ∀ c ∈ xs, (c != 'T') = true) :
    ((xs ++ 'T' :: ys).takeWhile fun c => c != 'T') = xs ∧
      ((xs ++ 'T' :: ys).dropWhile fun c => c != 'T') = 'T' :: ys := by
  induction xs with
  | nil => simp [List.takeWhile, List.dropWhile]
  | cons c xs ih =>
      have hc := h c (List.mem_cons_self c xs)
      have ih2 := ih fun a ha => h a (List.mem_cons_of_mem _ ha)
      simp only [List.cons_append, List.takeWhile_cons, List.dropWhile_cons, hc,
        if_true]
      exact ⟨by rw [ih2.1], by rw [ih2.2]⟩

/-- After the `+00:00 → Z` replacement, the canonical ISO string has
become the canonical filename up to the colon replacement. -/
lemma naming_step_one (p : IsoMsParts) :
    pyReplace (isoChars p) plusZoneChars ['Z'] =
      (dateChars p ++ 'T' :: timeChars p) ++ ['Z'] := by
  have hsplit : isoChars p = (dateChars p ++ 'T' :: timeChars p) ++ plusZoneChars := by
    simp [isoChars, List.append_assoc]
  have hnoplus : ∀ c ∈ dateChars p ++ 'T' :: timeChars p, c ≠ '+' := by
    intro c hc
    simp only [dateChars, timeChars, List.mem_append, List.mem_cons,
      List.not_mem_nil, or_false, or_assoc] at hc
    rcases hc with rfl|rfl|rfl|rfl|rfl|rfl|rfl|rfl|rfl|rfl|rfl|rfl|rfl|rfl|rfl|
      rfl|rfl|rfl|rfl|rfl|rfl|rfl|rfl <;>
      first
        | exact (dChar_ne_structural _).1
        | decide
  rw [hsplit]
  show pyReplaceCore '+' ['0', '0', ':', '0', '0'] ['Z'] _ = _
  rw [pyReplaceCore_append _ _ _ _ _ hnoplus]
  congr 1
  simp [plusZoneChars, pyReplaceCore, List.isPrefixOf]

/-- Case analysis for a character of the filename form's head. -/
lemma mem_head_cases_file (p : IsoMsParts) (c : Char)
    (hc : c ∈ dateChars p ++ 'T' :: fileTimeChars p) :
    (∃ d : Fin 10, c = dChar d) ∨ c = '-' ∨ c = 'T' ∨ c = '.' := by
  simp only [dateChars, fileTimeChars, List.mem_append, List.mem_cons,
    List.not_mem_nil, or_false, or_assoc] at hc
  rcases hc with rfl|rfl|rfl|rfl|rfl|rfl|rfl|rfl|rfl|rfl|rfl|rfl|rfl|rfl|rfl|
    rfl|rfl|rfl|rfl|rfl|rfl|rfl|rfl <;>
    first
      | exact Or.inl ⟨_, rfl⟩
      | simp

/-- The date part of the canonical forms contains no `T`. -/
lemma dateChars_bne_T (p : IsoMsParts) :
    ∀ c ∈ dateChars p, (c != 'T') = true := by
  intro c hc
  simp only [dateChars, List.mem_cons, List.not_mem_nil, or_false] at hc
  rcases hc with rfl|rfl|rfl|rfl|rfl|rfl|rfl|rfl|rfl|rfl <;>
    first
      | exact dChar_bne_T _
      | decide

/-- `iso_file_naming` carries the canonical ISO string to the
canonical filesystem-safe name. -/
lemma iso_file_naming_eq (p : IsoMsParts) :
    iso_file_naming (isoChars p) = fileChars p := by
  unfold iso_file_naming
  rw [naming_step_one]
  show pyReplaceCore ':' [] ['-'] _ = _
  rw [pyReplaceCore_single]
  have hmap : ((dateChars p ++ 'T' :: timeChars p) ++ ['Z']).map
      (fun c => if c == ':' then '-' else c) =
      (dateChars p ++ 'T' :: fileTimeChars p) ++ ['Z'] := by
    simp [dateChars, timeChars, fileTimeChars, dChar_ite_colon]
    repeat' apply And.intro
    all_goals exact fun h => absurd h (dChar_ne_structural _).2.1
  rw [hmap, fileChars]
  simp

/-- `iso_file_parsing` carries the canonical filesystem-safe name
back to the canonical ISO string. -/
lemma iso_file_parsing_eq (p : IsoMsParts) :
    iso_file_parsing (fileChars p) = isoChars p := by
  have hsplit : fileChars p = (dateChars p ++ 'T' :: fileTimeChars p) ++ ['Z'] := by
    simp [fileChars]
  have hnoZ : ∀ c ∈ dateChars p ++ 'T' :: fileTimeChars p, c ≠ 'Z' := by
    intro c hc
    rcases mem_head_cases_file p c hc with ⟨d, rfl⟩ | rfl | rfl | rfl
    · exact (dChar_ne_structural d).2.2.1
    · decide
    · decide
    · decide
  have hstep1 : pyReplace (fileChars p) ['Z'] plusZoneChars =
      dateChars p ++ 'T' :: (fileTimeChars p ++ plusZoneChars) := by
    rw [hsplit]
    show pyReplaceCore 'Z' [] plusZoneChars _ = _
    rw [pyReplaceCore_append _ _ _ _ _ hnoZ]
    have : pyReplaceCore 'Z' [] plusZoneChars ['Z'] = plusZoneChars := by
      simp [pyReplaceCore, List.isPrefixOf]
    rw [this]
    simp
  have htake := takeWhile_dropWhile_T (dateChars p)
    (fileTimeChars p ++ plusZoneChars) (dateChars_bne_T p)
  have hTmem : 'T' ∈ dateChars p ++ 'T' :: (fileTimeChars p ++ plusZoneChars) :=
    List.mem_append_right _ (List.mem_cons_self _ _)
  unfold iso_file_parsing
  rw [hstep1, if_pos hTmem, htake.1, htake.2, List.tail_cons]
  show dateChars p ++ 'T' :: pyReplaceCore '-' [] [':'] _ = _
  rw [pyReplaceCore_single]
  have hmap : (fileTimeChars p ++ plusZoneChars).map
      (fun c => if c == '-' then ':' else c) =
      timeChars p ++ plusZoneChars := by
    simp [fileTimeChars, timeChars, plusZoneChars, dChar_ite_hyphen]
    repeat' apply And.intro
    all_goals exact fun h => absurd h (dChar_ne_structural _).2.2.2.2.1
  rw [hmap, isoChars]

/-- C5: for every UTC instant at millisecond precision
(`YYYY-MM-DDThh:mm:ss.fff+00:00`), encoding with `iso_file_naming`
yields the filesystem-safe form `YYYY-MM-DDThh-mm-ss.fffZ`, decoding
with `iso_file_parsing` yields back the original ISO-8601 string
exactly, and the two canonical families are in bijection: the two
functions are mutually inverse on them, so encoding is injective. -/
theorem iso_file_naming_parsing_roundtrip :
    (∀ p : IsoMsParts, iso_file_naming (isoChars p) = fileChars p) ∧
    (∀ p : IsoMsParts, iso_file_parsing (fileChars p) = isoChars p) ∧
    (∀ p : IsoMsParts,
      iso_file_parsing (iso_file_naming (isoChars p)) = isoChars p) ∧
    (∀ p : IsoMsParts,
      iso_file_naming (iso_file_parsing (fileChars p)) = fileChars p) ∧
    (∀ p q : IsoMsParts,
      iso_file_naming (isoChars p) = iso_file_naming (isoChars q) →
      isoChars p = isoChars q) := by
  refine ⟨iso_file_naming_eq, iso_file_parsing_eq,
    fun p => by rw [iso_file_naming_eq, iso_file_parsing_eq],
    fun p => by rw [iso_file_parsing_eq, iso_file_naming_eq],
    fun p q h => ?_⟩
  have h2 := congrArg iso_file_parsing h
  rwa [iso_file_naming_eq, iso_file_naming_eq, iso_file_parsing_eq,
    iso_file_parsing_eq] at h2

/-- Witness for C5 at the concrete instant
`2024-03-05T12:34:56.789+00:00`: the roundtrip through the
filesystem-safe name returns the instant's ISO string exactly. -/
theorem iso_file_naming_parsing_roundtrip_witness :
    iso_file_parsing (iso_file_naming
        (isoChars ⟨2, 0, 2, 4, 0, 3, 0, 5, 1, 2, 3, 4, 5, 6, 7, 8, 9⟩)) =
      isoChars ⟨2, 0, 2, 4, 0, 3, 0, 5, 1, 2, 3, 4, 5, 6, 7, 8, 9⟩ :=
  iso_file_naming_parsing_roundtrip.2.2.1
    ⟨2, 0, 2, 4, 0, 3, 0, 5, 1, 2, 3, 4, 5, 6, 7, 8, 9⟩

open FileCacheManager

/-- On a segment sorted strictly newest-first, the Python `min` scan
returns the final (oldest) entry. -/
lemma pyMinGo_append_sorted {P : Type} (best last : P × ℤ) (init : List (P × ℤ))
    (h : List.Pairwise (fun a b : P × ℤ => b.2 < a.2) (best :: (init ++ [last]))) :
    pyMinGo best (init ++ [last]) = last := by
  induction init generalizing best with
  | nil =>
      have hlt : last.2 < best.2 :=
        (List.pairwise_cons.mp h).1 last (List.mem_singleton.mpr rfl)
      simp [pyMinGo, hlt]
  | cons x t ih =>
      have hx : x.2 < best.2 :=
        (List.pairwise_cons.mp h).1 x (List.mem_cons_self _ _)
      rw [List.cons_append, pyMinGo, if_pos hx]
      exact ih x (List.pairwise_cons.mp h).2

/-- On a nonempty manifest sorted strictly newest-first,
`min(manifest, key=manifest.get)` is the final (oldest) entry. -/
lemma pyMinBy_append_sorted {P : Type} (last : P × ℤ) (init : List (P × ℤ))
    (h : List.Pairwise (fun a b : P × ℤ => b.2 < a.2) (init ++ [last])) :
    pyMinBy (init ++ [last]) = some last := by
  cases init with
  | nil => simp [pyMinBy, pyMinGo]
  | cons a t =>
      rw [List.cons_append, pyMinBy]
      rw [pyMinGo_append_sorted a last t (by simpa using h)]

/-- Deleting the oldest entry's key from a key-distinct manifest
removes exactly the final entry. -/
lemma filter_ne_last {P : Type} [DecidableEq P] (init : List (P × ℤ))
    (last : P × ℤ) (h : last.1 ∉ init.map Prod.fst) :
    ((init ++ [last]).filter fun x => !(decide (x.1 = last.1))) = init := by
  induction init with
  | nil => simp
  | cons a t ih =>
      have hane : ¬(a.1 = last.1) := by
        intro hEq
        exact h (by rw [List.map_cons, hEq]; exact List.mem_cons_self _ _)
      rw [List.cons_append, List.filter_cons]
      simp only [decide_eq_false hane, Bool.not_false, if_true]
      rw [ih fun hmem =>
        h (by rw [List.map_cons]; exact List.mem_cons_of_mem _ hmem)]

/-- The count-based purge on a manifest sorted strictly newest-first
with distinct paths keeps exactly the `max_count` newest entries. -/
lemma purgeOldest_eq_take {P : Type} [DecidableEq P] (maxCount : ℕ) :
    ∀ (n : ℕ) (l : List (P × ℤ)), l.length = n →
      List.Pairwise (fun a b : P × ℤ => b.2 < a.2) l →
      (l.map Prod.fst).Nodup →
      purgeOldestWhileMaxCountExceeded maxCount l = l.take maxCount := by
  intro n
  induction n using Nat.strong_induction_on with
  | _ n ih =>
      intro l hlen hp hnd
      rw [purgeOldestWhileMaxCountExceeded]
      by_cases hle : l.length ≤ maxCount
      · rw [if_pos hle, List.take_of_length_le hle]
      · rw [if_neg hle]
        have hne : l ≠ [] := by
          intro h0; subst h0; simp at hle
        rcases List.eq_nil_or_concat l with rfl | ⟨init, last, rfl⟩
        · exact absurd rfl hne
        · rw [List.concat_eq_append] at hlen hp hnd hle ⊢
          have hmin := pyMinBy_append_sorted last init hp
          have hnotin : last.1 ∉ init.map Prod.fst := by
            intro hmem
            rw [List.map_append, List.map_singleton] at hnd
            exact (List.disjoint_of_nodup_append hnd) hmem
              (List.mem_singleton.mpr rfl)
          have hfilter := filter_ne_last init last hnotin
          rw [hmin]
          simp only [hfilter]
          have hlen2 : init.length < n := by
            rw [← hlen]; simp
          have hcount : maxCount ≤ init.length := by
            simp only [List.length_append, List.length_singleton] at hle
            omega
          rw [ih init.length hlen2 init rfl
            (hp.sublist (List.sublist_append_left _ _))
            ((List.nodup_append.mp (by rwa [List.map_append] at hnd)).1)]
          rw [List.take_append_of_le_length hcount]

/-- C6: the purge run at `FileCacheManager` construction satisfies
the two policies.  Age-based purging keeps exactly the entries whose
age does not exceed `max_age`, independent of how many there are; and
count-based purging, per file-extension group (whose manifest is
sorted newest-first with distinct paths), repeatedly deletes the
single oldest entry until at most `max_count` remain — so the
`max_count` newest survive.  With 5 snapshots and `max_count = 3`
exactly the 3 newest remain, and a single snapshot older than
`max_age` is deleted regardless of count. -/
theorem file_cache_manager_purge :
    (∀ (P : Type) (now maxAge : ℤ) (manifest : List (P × ℤ)) (e : P × ℤ),
      e ∈ purgeAnyExpired now maxAge manifest ↔
        e ∈ manifest ∧ now - e.2 ≤ maxAge) ∧
    (∀ (P : Type) (_iP : DecidableEq P) (maxCount : ℕ)
        (manifest : List (P × ℤ)),
      List.Pairwise (fun a b : P × ℤ => b.2 < a.2) manifest →
      (manifest.map Prod.fst).Nodup →
      purgeOldestWhileMaxCountExceeded maxCount manifest =
        manifest.take maxCount) ∧
    purgeOldestWhileMaxCountExceeded 3 fiveSnapshots =
      [(1, 50), (2, 40), (3, 30)] ∧
    purgeAnyExpired 100 30 [((7 : ℕ), (50 : ℤ))] = [] := by
  refine ⟨?_, ?_, ?_, by decide⟩
  · intro P now maxAge manifest e
    simp [purgeAnyExpired, List.mem_filter, not_lt]
  · intro P _iP maxCount manifest hp hnd
    exact purgeOldest_eq_take maxCount manifest.length manifest rfl hp hnd
  · have h := purgeOldest_eq_take 3 fiveSnapshots.length fiveSnapshots rfl
      (by decide) (by decide)
    rw [h]
    rfl

/-- Witness for C6: the five-snapshot group sorted newest-first with
distinct paths, purged with `max_count = 3`, keeps exactly the three
newest entries. -/
theorem file_cache_manager_purge_witness :
    purgeOldestWhileMaxCountExceeded 2 fiveSnapshots = [(1, 50), (2, 40)] := by
  have h := file_cache_manager_purge.2.1 ℕ inferInstance 2 fiveSnapshots
    (by decide) (by decide)
  rw [h]
  rfl

open InputLayer

/-- C10: with `thread_executor` set, `load_latest_features` never
returns normally: `next(iter(feature_history, None))` calls the
two-argument form of `iter` with the feature-history list as first
argument, which is not callable, so a `TypeError` is raised for every
feature history. -/
theorem load_latest_features_raises_type_error {α : Type}
    (feature_history : List α) :
    loadLatestFeatures true feature_history = .error .typeError := rfl

/-- C7: whenever the union of features fetched across all pages holds
fewer records than the authoritative count, `refresh_features` raises
an error and appends no snapshot to the features cache: the cache
state is returned unchanged. -/
theorem refresh_features_partial_fetch_not_cached :
    ∀ (SR Feat : Type) (_iSR : DecidableEq SR) (rs sp : Bool) (target : ℕ)
      (responses : List (FeatureResp SR Feat)) (cache : List (List Feat)),
      (unionFeatures responses).length < target →
      (∃ e, (refreshFeatures rs sp target responses cache).1 = .error e) ∧
        (refreshFeatures rs sp target responses cache).2 = cache := by
  intro SR Feat _iSR rs sp target responses cache hlt
  simp only [refreshFeatures]
  split_ifs with h1 h2 h3 h4
  · exact ⟨⟨.resourceNotInitialized, rfl⟩, rfl⟩
  · exact ⟨⟨.paginationNotSupported, rfl⟩, rfl⟩
  · exact ⟨⟨.invalidFeaturesResponse, rfl⟩, rfl⟩
  · exact ⟨⟨.unclearSpatialReference, rfl⟩, rfl⟩
  · exact ⟨⟨.incompleteFeatures (unionFeatures responses).length target, rfl⟩,
      rfl⟩

/-- Witness for C7: a single page bearing one record against an
authoritative count of 2 errors out and leaves the (empty) cache
unchanged. -/
theorem refresh_features_partial_fetch_not_cached_witness :
    (∃ e, (refreshFeatures true true 2
        [(⟨false, some [()], some 0⟩ : FeatureResp ℕ Unit)] []).1 =
          .error e) ∧
      (refreshFeatures true true 2
        [(⟨false, some [()], some 0⟩ : FeatureResp ℕ Unit)] []).2 = [] :=
  refresh_features_partial_fetch_not_cached ℕ Unit inferInstance true true 2
    [⟨false, some [()], some 0⟩] [] (by decide)

/-- `mkCacheManifest` succeeds exactly on fully valid raw
dictionaries, and then returns their entries sorted newest-first. -/
lemma mkCacheManifest_ok_spec {P : Type} (fs : P → Option FileKind)
    (raw m : List (P × PyDatetime)) (h : mkCacheManifest fs raw = .ok m) :
    List.Pairwise (fun a b : P × PyDatetime => b.2.instant ≤ a.2.instant) m ∧
      (∀ e ∈ m, fs e.1 = some .file ∧ e.2.tzinfo = some 0) ∧
      (∀ e, e ∈ m ↔ e ∈ raw) := by
  unfold mkCacheManifest at h
  cases hfind : raw.findSome? (entryError fs) with
  | some err => rw [hfind] at h; simp at h
  | none =>
      rw [hfind] at h
      simp only [Except.ok.injEq] at h
      subst h
      have hall := List.findSome?_eq_none_iff.mp hfind
      have hperm := List.perm_insertionSort
        (fun a b : P × PyDatetime => b.2.instant ≤ a.2.instant) raw
      refine ⟨?_, ?_, fun e => hperm.mem_iff⟩
      · haveI : IsTotal (P × PyDatetime)
            (fun a b => b.2.instant ≤ a.2.instant) :=
          ⟨fun a b => le_total b.2.instant a.2.instant⟩
        haveI : IsTrans (P × PyDatetime)
            (fun a b => b.2.instant ≤ a.2.instant) :=
          ⟨fun _ _ _ hab hbc => le_trans hbc hab⟩
        exact List.sorted_insertionSort _ raw
      · intro e he
        have hmem : e ∈ raw := hperm.mem_iff.mp he
        have hnone := hall e hmem
        unfold entryError at hnone
        cases hfs : fs e.1 with
        | none => rw [hfs] at hnone; simp at hnone
        | some k =>
            cases k with
            | dir => rw [hfs] at hnone; simp at hnone
            | file =>
                rw [hfs] at hnone
                by_cases htz : e.2.tzinfo = some 0
                · exact ⟨rfl, htz⟩
                · rw [if_neg htz] at hnone; simp at hnone

/-- C9: every `CacheManifest` — built directly, via `load_manifest`,
or via `parse_manifest` — is sorted by creation instant descending
(newest first), and each of its entries maps an existing,
non-directory file to a `timezone.utc`-aware creation instant;
construction preserves exactly the given entries and rejects any raw
dictionary containing a violating entry. -/
theorem cache_manifest_invariants :
    (∀ (P : Type) (fs : P → Option FileKind) (raw m : List (P × PyDatetime)),
      mkCacheManifest fs raw = .ok m →
      List.Pairwise (fun a b : P × PyDatetime => b.2.instant ≤ a.2.instant) m ∧
        (∀ e ∈ m, fs e.1 = some .file ∧ e.2.tzinfo = some 0) ∧
        (∀ e, e ∈ m ↔ e ∈ raw)) ∧
    (∀ (P : Type) (fs : P → Option FileKind) (raw : List (P × PyDatetime)),
      (∃ e ∈ raw, ¬(fs e.1 = some .file ∧ e.2.tzinfo = some 0)) →
      ∃ err, mkCacheManifest fs raw = .error err) ∧
    (∀ (P : Type) (fs : P → Option FileKind)
        (globResults : List (P × Option PyDatetime))
        (m : List (P × PyDatetime)),
      loadManifest fs globResults = .ok m →
      List.Pairwise (fun a b : P × PyDatetime => b.2.instant ≤ a.2.instant) m ∧
        ∀ e ∈ m, fs e.1 = some .file ∧ e.2.tzinfo = some 0) ∧
    (∀ (P : Type) (fs : P → Option FileKind)
        (manifest m : List (P × PyDatetime)) (n : ℕ),
      parseManifest fs manifest n = .ok m →
      List.Pairwise (fun a b : P × PyDatetime => b.2.instant ≤ a.2.instant) m ∧
        ∀ e ∈ m, fs e.1 = some .file ∧ e.2.tzinfo = some 0) := by
  refine ⟨fun P fs raw m h => mkCacheManifest_ok_spec fs raw m h, ?_, ?_, ?_⟩
  · intro P fs raw ⟨e, hmem, hbad⟩
    cases hres : mkCacheManifest fs raw with
    | error err => exact ⟨err, rfl⟩
    | ok m =>
        obtain ⟨-, hvalid, hiff⟩ := mkCacheManifest_ok_spec fs raw m hres
        exact absurd (hvalid e ((hiff e).mpr hmem)) hbad
  · intro P fs globResults m h
    unfold loadManifest at h
    cases hc : collectParsed globResults with
    | error e => rw [hc] at h; simp at h
    | ok raw =>
        rw [hc] at h
        obtain ⟨hs, hv, -⟩ := mkCacheManifest_ok_spec fs raw m h
        exact ⟨hs, hv⟩
  · intro P fs manifest m n h
    obtain ⟨hs, hv, -⟩ := mkCacheManifest_ok_spec fs (manifest.take n) m h
    exact ⟨hs, hv⟩

/-- Witness for C9: a one-entry raw dictionary whose path is an
existing file and whose instant is UTC-aware constructs successfully,
and the resulting manifest is sorted and valid. -/
theorem cache_manifest_invariants_witness :
    List.Pairwise
        (fun a b : ℕ × PyDatetime => b.2.instant ≤ a.2.instant)
        [((4 : ℕ), ⟨11, some 0⟩)] ∧
      (∀ e ∈ [((4 : ℕ), (⟨11, some 0⟩ : PyDatetime))],
        (fun _ : ℕ => some FileKind.file) e.1 = some .file ∧
          e.2.tzinfo = some 0) ∧
      (∀ e, e ∈ [((4 : ℕ), (⟨11, some 0⟩ : PyDatetime))] ↔
        e ∈ [((4 : ℕ), (⟨11, some 0⟩ : PyDatetime))]) :=
  cache_manifest_invariants.1 ℕ (fun _ => some .file)
    [(4, ⟨11, some 0⟩)] [(4, ⟨11, some 0⟩)] (by rfl)

end Akdof
